import Mathlib

/-!
Verification of the static site generator in `build.py` (content pipeline and
site assembly).  Strings are modelled as `List Char`; the Python string
operations used by the source (`str.split`, `str.replace`, `str.strip`,
substring tests, regular-expression scans) are embedded as executable
functions below.  Scanning functions that consume a variable number of
characters per step take an explicit fuel argument; the public wrappers pass
`length + 1`, which is always sufficient, so the wrappers compute the exact
Python semantics while remaining structurally recursive (kernel-reducible).
-/

abbrev Str := List Char

/-- Equality of `Except` values is decidable componentwise (used to evaluate
parse and build results on concrete inputs). -/
instance [DecidableEq ε] [DecidableEq α] : DecidableEq (Except ε α) := fun x y =>
  match x, y with
  | .ok a, .ok b =>
    if h : a = b then .isTrue (congrArg Except.ok h)
    else .isFalse (fun hc => h (Except.ok.inj hc))
  | .error e, .error f =>
    if h : e = f then .isTrue (congrArg Except.error h)
    else .isFalse (fun hc => h (Except.error.inj hc))
  | .ok _, .error _ => .isFalse (fun hc => Except.noConfusion hc)
  | .error _, .ok _ => .isFalse (fun hc => Except.noConfusion hc)

/-- Python `\s` for `str.strip()` and the regex classes used by the source:
space, tab, newline, carriage return, vertical tab, form feed. -/
def isPySpace (c : Char) : Bool :=
  c = ' ' || c = '\t' || c = '\n' || c = '\r' || c = Char.ofNat 11 || c = Char.ofNat 12

/-- Drop leading characters that belong to `cs` (helper for `str.strip`). -/
def stripLeft (cs : List Char) : Str → Str
  | [] => []
  | c :: rest => if c ∈ cs then stripLeft cs rest else c :: rest

/-- Python `s.strip(chars)`: remove characters of `cs` from both ends. -/
def pyStripChars (cs : List Char) (s : Str) : Str :=
  ((stripLeft cs (stripLeft cs s).reverse)).reverse

/-- Python `s.strip()` (no argument): strip ASCII whitespace from both ends. -/
def pyStripWs (s : Str) : Str :=
  pyStripChars [' ', '\t', '\n', '\r', Char.ofNat 11, Char.ofNat 12] s

/-- Decrement an optional remaining-splits counter (Python `maxsplit`). -/
def decMS : Option Nat → Option Nat :=
  Option.map (fun n => n - 1)

/-- Core scanner of Python `str.split(sep, maxsplit)`: scans left to right for
non-overlapping occurrences of `sep`, splitting at each until `maxsplit` is
exhausted.  `cur` holds the characters of the current field in reverse.
`fuel` only bounds the recursion; callers pass `s.length + 1`, which is enough
whenever `sep` is nonempty (the source only splits on `'---\n'`, `':'` and
`','`). -/
def pySplitF (sep : Str) : Option Nat → Nat → Str → Str → List Str
  | _, 0, s, cur => [cur.reverse ++ s]
  | some 0, _ + 1, s, cur => [cur.reverse ++ s]
  | _, _ + 1, [], cur => [cur.reverse]
  | ms, fuel + 1, c :: rest, cur =>
    if sep.isPrefixOf (c :: rest) then
      cur.reverse :: pySplitF sep (decMS ms) fuel (List.drop sep.length (c :: rest)) []
    else
      pySplitF sep ms fuel rest (c :: cur)

/-- Python `s.split(sep, maxsplit)`; `none` means unlimited splits. -/
def pySplit (sep : Str) (ms : Option Nat) (s : Str) : List Str :=
  pySplitF sep ms (s.length + 1) s []

/-- Core scanner of Python `s.replace(old, new)`: replaces every
non-overlapping occurrence of `old`, scanning left to right.  The empty-`old`
case inserts `new` between all characters and at the end, as Python does.
Callers pass `s.length + 1` fuel, which is always sufficient. -/
def pyReplaceF (old new : Str) : Nat → Str → Str
  | 0, s => s
  | _ + 1, [] => if old = [] then new else []
  | fuel + 1, c :: rest =>
    if old.isPrefixOf (c :: rest) && !old.isEmpty then
      new ++ pyReplaceF old new fuel (List.drop old.length (c :: rest))
    else if old = [] then
      new ++ c :: pyReplaceF old new fuel rest
    else
      c :: pyReplaceF old new fuel rest

/-- Python `s.replace(old, new)`. -/
def pyReplace (old new : Str) (s : Str) : Str :=
  pyReplaceF old new (s.length + 1) s

/-- Python `pat in s` (substring containment). -/
def hasSub (pat : Str) : Str → Bool
  | [] => pat.isEmpty
  | c :: rest => pat.isPrefixOf (c :: rest) || hasSub pat rest

/-- Index of the first occurrence of `pat` (used to embed the non-greedy
regex scans of the math transformer). -/
def findSub (pat : Str) : Str → Option Nat
  | [] => if pat.isEmpty then some 0 else none
  | c :: rest =>
    if pat.isPrefixOf (c :: rest) then some 0
    else (findSub pat rest).map (fun n => n + 1)

/-- Python `sep.join(parts)`. -/
def joinSep (sep : Str) : List Str → Str
  | [] => []
  | [x] => x
  | x :: xs => x ++ sep ++ joinSep sep xs

/-! ### Dates (`datetime.strptime(value, '%Y-%m-%d')` and strftime formats) -/

/-- A `datetime.datetime` produced by the source always has a zero time part,
so only the calendar date is modelled. -/
structure Date where
  y : Nat
  m : Nat
  d : Nat
deriving DecidableEq

/-- `datetime.min` (0001-01-01), the sort substitute for a missing date. -/
def datetime_min : Date := ⟨1, 1, 1⟩

/-- Chronological key.  For the dates constructible by the parser
(`m ≤ 12`, `d ≤ 31`) this numeric encoding orders exactly like the
lexicographic year/month/day comparison that Python uses on `datetime`. -/
def Date.code (dt : Date) : Nat := dt.y * 10000 + dt.m * 100 + dt.d

def isLeapYear (y : Nat) : Bool := y % 4 = 0 && (y % 100 != 0 || y % 400 = 0)

def daysInMonth (y m : Nat) : Nat :=
  if m = 2 then (if isLeapYear y then 29 else 28)
  else if m = 4 || m = 6 || m = 9 || m = 11 then 30
  else 31

def digitVal (c : Char) : Nat := c.toNat - '0'.toNat

/-- CPython's strptime matches `%m` with `1[0-2]|0[1-9]|[1-9]` and `%d` with
`3[01]|[12]\d|0[1-9]|[1-9]`: a two-digit value in `lo..hi` (with `00`
excluded, as its value is below `lo`), preferred over a single digit `1-9`.
Returns the value and the unconsumed input. -/
def parseNum2 (lo hi : Nat) : Str → Option (Nat × Str)
  | c1 :: c2 :: rest =>
    if c1.isDigit && c2.isDigit &&
        decide (lo ≤ digitVal c1 * 10 + digitVal c2) &&
        decide (digitVal c1 * 10 + digitVal c2 ≤ hi) then
      some (digitVal c1 * 10 + digitVal c2, rest)
    else if c1.isDigit && decide (1 ≤ digitVal c1) then
      some (digitVal c1, c2 :: rest)
    else none
  | [c1] =>
    if c1.isDigit && decide (1 ≤ digitVal c1) then some (digitVal c1, []) else none
  | [] => none

/-- `datetime.strptime(s, '%Y-%m-%d')`: exactly four year digits, the
month/day fields above, nothing left over, and the resulting triple must be a
valid proleptic-Gregorian date (`datetime` construction checks the day
against the month length and rejects year 0). -/
def parseDateYMD (s : Str) : Option Date :=
  match s with
  | y1 :: y2 :: y3 :: y4 :: '-' :: rest =>
    if y1.isDigit && y2.isDigit && y3.isDigit && y4.isDigit then
      match parseNum2 1 12 rest with
      | some (m, '-' :: rest2) =>
        match parseNum2 1 31 rest2 with
        | some (d, []) =>
          let y := ((digitVal y1 * 10 + digitVal y2) * 10 + digitVal y3) * 10 + digitVal y4
          if decide (1 ≤ y) && decide (d ≤ daysInMonth y m) then some ⟨y, m, d⟩ else none
        | _ => none
      | _ => none
    else none
  | _ => none

def natStr (n : Nat) : Str := (Nat.repr n).data

/-- Zero-padded two-digit field (`%d`, month/day of `isoformat`). -/
def pad2 (n : Nat) : Str := if n < 10 then '0' :: natStr n else natStr n

/-- Four-digit zero-padded year as printed by `datetime.isoformat`. -/
def pad4 (n : Nat) : Str :=
  List.replicate (4 - (natStr n).length) '0' ++ natStr n

def monthNames : List Str :=
  ["January".data, "February".data, "March".data, "April".data, "May".data,
   "June".data, "July".data, "August".data, "September".data, "October".data,
   "November".data, "December".data]

def monthAbbrevs : List Str :=
  ["Jan".data, "Feb".data, "Mar".data, "Apr".data, "May".data, "Jun".data,
   "Jul".data, "Aug".data, "Sep".data, "Oct".data, "Nov".data, "Dec".data]

def monthName (m : Nat) : Str := monthNames.getD (m - 1) []

def monthAbbrev (m : Nat) : Str := monthAbbrevs.getD (m - 1) []

/-- Days in the years before year `y` (proleptic Gregorian, as in
`datetime.toordinal`). -/
def daysBeforeYear (y : Nat) : Nat :=
  let n := y - 1
  n * 365 + n / 4 - n / 100 + n / 400

/-- Days in the months of year `y` before month `m`. -/
def daysBeforeMonth (y m : Nat) : Nat :=
  ((List.range (m - 1)).map (fun i => daysInMonth y (i + 1))).sum

/-- `datetime.toordinal`: 0001-01-01 is day 1. -/
def Date.toOrdinal (dt : Date) : Nat :=
  daysBeforeYear dt.y + daysBeforeMonth dt.y dt.m + dt.d

def weekdayAbbrevs : List Str :=
  ["Mon".data, "Tue".data, "Wed".data, "Thu".data, "Fri".data, "Sat".data, "Sun".data]

/-- `%a`: 0001-01-01 was a Monday in the proleptic Gregorian calendar. -/
def weekdayAbbrev (dt : Date) : Str :=
  weekdayAbbrevs.getD ((dt.toOrdinal - 1) % 7) []

/-- `date.strftime('%B %d, %Y')` as used for displayed post dates. -/
def strftimeLong (dt : Date) : Str :=
  monthName dt.m ++ " ".data ++ pad2 dt.d ++ ", ".data ++ natStr dt.y

/-- `datetime.isoformat()`: the time part of parsed dates is always zero. -/
def isoformat (dt : Date) : Str :=
  pad4 dt.y ++ "-".data ++ pad2 dt.m ++ "-".data ++ pad2 dt.d ++ "T00:00:00".data

/-- `date.strftime('%a, %d %b %Y %H:%M:%S +0000')` (RSS pubDate). -/
def strftimeRss (dt : Date) : Str :=
  weekdayAbbrev dt ++ ", ".data ++ pad2 dt.d ++ " ".data ++ monthAbbrev dt.m ++
    " ".data ++ natStr dt.y ++ " 00:00:00 +0000".data

/-! ### Templates (`load_template`, `render_template`) -/

/-- The template directory, as a mapping from template name (without the
`.html` extension) to file contents; `load_template` returns `''` when the
file does not exist. -/
def load_template (fs : List (Str × Str)) (name : Str) : Str :=
  match fs.find? (fun kv => kv.1 = name) with
  | some kv => kv.2
  | none => []

/-- `render_template(template, **context)`: for each key in keyword order,
replace `{{key}}` and then `{{ key }}` by the value (plain `str.replace`). -/
def render_template (template : Str) (context : List (Str × Str)) : Str :=
  context.foldl
    (fun t kv =>
      pyReplace ("\x7b\x7b ".data ++ kv.1 ++ " \x7d\x7d".data) kv.2
        (pyReplace ("\x7b\x7b".data ++ kv.1 ++ "\x7d\x7d".data) kv.2 t))
    template

/-! ### `MathPreprocessor.run` (math escaping passes, in source order) -/

/-- Output shape of the display-math substitutions (`AtomicString` only tags
the fragment for the markdown engine; it does not change the characters). -/
def displayWrap (inner : Str) : Str :=
  "<div class=\"math math-display\">&#92;[".data ++ inner ++ "&#92;]</div>".data

/-- Output shape of the inline-math substitutions. -/
def inlineWrap (inner : Str) : Str :=
  "<span class=\"math math-inline\">&#92;(".data ++ inner ++ "&#92;)</span>".data

/-- Pass 1: `re.sub(r'$$(.*?)$$', ..., text, flags=re.DOTALL)` — non-greedy,
so the group runs to the first later `$$`; an unclosed `$$` falls through and
scanning resumes one character later, as `re.sub` does. -/
def subDisplayF : Nat → Str → Str
  | 0, s => s
  | _ + 1, [] => []
  | fuel + 1, '$' :: '$' :: rest =>
    (match findSub ['$', '$'] rest with
     | some i => displayWrap (rest.take i) ++ subDisplayF fuel (rest.drop (i + 2))
     | none => '$' :: subDisplayF fuel ('$' :: rest))
  | fuel + 1, c :: rest => c :: subDisplayF fuel rest

/-- Inner-group test of the inline-math regex
`\$([^\s\$][^\$]*?[^\s\$]|[^\s\$])\$`: a single non-space character, or at
least two characters whose first and last are non-space (the middle is
already `$`-free because the group stops at the first later `$`). -/
def inlineContentOK (content : Str) : Bool :=
  match content with
  | [] => false
  | [c] => !isPySpace c
  | c :: cs => !isPySpace c && !isPySpace (cs.getLastD c)

/-- Pass 2: the inline-math substitution.  At a `$` the only candidate close
is the next `$` (the group cannot contain `$`); the match succeeds when the
content passes `inlineContentOK`, otherwise scanning resumes one character
later. -/
def subInlineF : Nat → Str → Str
  | 0, s => s
  | _ + 1, [] => []
  | fuel + 1, c :: rest =>
    if c = '$' then
      (match findSub ['$'] rest with
       | some t =>
         if inlineContentOK (rest.take t) then
           inlineWrap (rest.take t) ++ subInlineF fuel (rest.drop (t + 1))
         else '$' :: subInlineF fuel rest
       | none => '$' :: subInlineF fuel rest)
    else c :: subInlineF fuel rest

/-- Pass 3: `re.sub(r'\\\((.*?)\\\)', ...)` — literal `\(`...`\)`. -/
def subParenF : Nat → Str → Str
  | 0, s => s
  | _ + 1, [] => []
  | fuel + 1, '\\' :: '(' :: rest =>
    (match findSub ['\\', ')'] rest with
     | some i => inlineWrap (rest.take i) ++ subParenF fuel (rest.drop (i + 2))
     | none => '\\' :: subParenF fuel ('(' :: rest))
  | fuel + 1, c :: rest => c :: subParenF fuel rest

/-- Pass 4: `re.sub(r'\\\[(.*?)\\\]', ...)` — literal `\[`...`\]`. -/
def subBrackF : Nat → Str → Str
  | 0, s => s
  | _ + 1, [] => []
  | fuel + 1, '\\' :: '[' :: rest =>
    (match findSub ['\\', ']'] rest with
     | some i => displayWrap (rest.take i) ++ subBrackF fuel (rest.drop (i + 2))
     | none => '\\' :: subBrackF fuel ('[' :: rest))
  | fuel + 1, c :: rest => c :: subBrackF fuel rest

/-- `MathPreprocessor.run`: the four substitution passes in source order
(display `$$`, inline `$`, `\(..\)`, `\[..\]`).  The source joins the line
list, transforms the joined text, and splits again, which is the identity on
the text itself, so the transformation is modelled on the whole text. -/
def MathPreprocessor.run (text : Str) : Str :=
  let t1 := subDisplayF (text.length + 1) text
  let t2 := subInlineF (t1.length + 1) t1
  let t3 := subParenF (t2.length + 1) t2
  subBrackF (t3.length + 1) t3

/-! ### `Post` parsing (`parse_content`, `parse_frontmatter`) -/

/-- The metadata fields of `Post` as initialised by `__init__` and mutated by
`parse_frontmatter` / the filename fallback. -/
structure PostMeta where
  title : Option Str := none
  date : Option Date := none
  slug : Option Str := none
  tags : List Str := []
  description : Str := []
deriving DecidableEq

def initMeta : PostMeta := {}

/-- The `tags` assignment: `[t.strip() for t in value.strip('[]').split(',')]`. -/
def tagsFromValue (value : Str) : List Str :=
  (pySplit [','] none (pyStripChars ['[', ']'] value)).map pyStripWs

/-- Quote characters stripped from scalar header values (`value.strip('"\'')`). -/
def quoteChars : List Char := ['"', Char.ofNat 39]

/-- `str.lower` (ASCII, which covers the identifiers the source handles). -/
def pyLower (s : Str) : Str := s.map Char.toLower

/-- Python regex `\w` on ASCII: letters, digits, underscore. -/
def isWordChar (c : Char) : Bool := c.isAlphanum || c = '_'

/-- Second slugification step, `re.sub(r'[-\s]+', '-', s)`: each maximal run
of hyphens/whitespace becomes a single hyphen. -/
def collapseRunsF : Nat → Str → Str
  | 0, s => s
  | _ + 1, [] => []
  | fuel + 1, c :: rest =>
    if c = '-' || isPySpace c then
      '-' :: collapseRunsF fuel (rest.dropWhile (fun x => x = '-' || isPySpace x))
    else c :: collapseRunsF fuel rest

/-- Slug derived from the title: lowercase, drop characters that are not
word/space/hyphen (`re.sub(r'[^\w\s-]', '', ·)`), then collapse runs. -/
def slugify (title : Str) : Str :=
  let s1 := (pyLower title).filter (fun c => isWordChar c || isPySpace c || c = '-')
  collapseRunsF (s1.length + 1) s1

/-- Truthiness used by `if not self.slug and self.title`. -/
def optStrTruthy : Option Str → Bool
  | none => false
  | some s => !s.isEmpty

/-- One `key: value` line of the front matter.  Lines without a colon are
ignored; a `date:` value that `strptime` rejects raises `ValueError`, which
is modelled as the `.error` carrying the offending value. -/
def parseFMLine (acc : PostMeta) (line : Str) : Except Str PostMeta :=
  if hasSub [':'] line then
    match pySplit [':'] (some 1) line with
    | [k, v] =>
      let key := pyStripWs k
      let value := pyStripWs v
      if key = "title".data then .ok { acc with title := some (pyStripChars quoteChars value) }
      else if key = "date".data then
        match parseDateYMD (pyStripChars quoteChars value) with
        | some dt => .ok { acc with date := some dt }
        | none => .error (pyStripChars quoteChars value)
      else if key = "slug".data then .ok { acc with slug := some (pyStripChars quoteChars value) }
      else if key = "tags".data then .ok { acc with tags := tagsFromValue value }
      else if key = "description".data then .ok { acc with description := pyStripChars quoteChars value }
      else .ok acc
    | _ => .ok acc
  else .ok acc

/-- `parse_frontmatter`: fold the `key: value` lines of `fm.strip()`, then
derive the slug from the title when the slug is still falsy. -/
def parse_frontmatter (acc : PostMeta) (fm : Str) : Except Str PostMeta :=
  match (pySplit ['\n'] none (pyStripWs fm)).foldlM parseFMLine acc with
  | .error v => .error v
  | .ok m =>
    if !optStrTruthy m.slug && optStrTruthy m.title then
      .ok { m with slug := some (slugify ((m.title).getD [])) }
    else .ok m

/-- Python `str.title()`: a cased letter is uppercased after a non-letter and
lowercased after a letter. -/
def pyTitle (s : Str) : Str :=
  (s.foldl (fun (acc : Str × Bool) c =>
    (acc.1 ++ [if acc.2 then c.toLower else c.toUpper], c.isAlpha)) ([], false)).1

/-- `re.match(r'(\d{4}-\d{2}-\d{2})-(.+)', stem)`: anchored at the start
only; `.` does not cross a newline, and `(.+)` is greedy, so group 2 is the
maximal newline-free run after the date, which must be nonempty.  Returns
(group 1, group 2). -/
def matchDatedStem (stem : Str) : Option (Str × Str) :=
  match stem with
  | a :: b :: c :: d :: '-' :: e :: f :: '-' :: g :: h :: '-' :: rest =>
    let g2 := rest.takeWhile (fun x => x ≠ '\n')
    if [a, b, c, d, e, f, g, h].all Char.isDigit && !g2.isEmpty then
      some ([a, b, c, d, '-', e, f, '-', g, h], g2)
    else none
  | _ => none

/-- Filename fallback of `parse_content`: metadata from a stem matching
`YYYY-MM-DD-<slug>`.  The date component still goes through `strptime`, so a
stem such as `2024-13-01-x` raises `ValueError` exactly like a bad header
date. -/
def metaFromFilename (stem : Str) : Except Str PostMeta :=
  match matchDatedStem stem with
  | some (g1, g2) =>
    (match parseDateYMD g1 with
     | some dt =>
       .ok { initMeta with
              date := some dt
              slug := some g2
              title := some (pyTitle (g2.map (fun c => if c = '-' then ' ' else c))) }
     | none => .error g1)
  | none => .ok initMeta

/-- `re.sub(r'<[^>]+>', '', html)`: drop every `<`…`>` span with a nonempty
body (used for the derived description). -/
def stripTagsF : Nat → Str → Str
  | 0, s => s
  | _ + 1, [] => []
  | fuel + 1, '<' :: rest =>
    let mid := rest.takeWhile (fun c => c ≠ '>')
    if !mid.isEmpty && mid.length < rest.length then
      stripTagsF fuel (rest.drop (mid.length + 1))
    else '<' :: stripTagsF fuel rest
  | fuel + 1, c :: rest => c :: stripTagsF fuel rest

/-- Derived description: first 200 characters of the tag-stripped HTML,
stripped, with `'...'` appended when the excerpt was truncated. -/
def mkExcerpt (html : Str) : Str :=
  let text := (stripTagsF (html.length + 1) html).take 200
  if 200 ≤ text.length then pyStripWs text ++ "...".data else pyStripWs text

/-- The in-memory `Post` (metadata, converted HTML, detection flags). -/
structure Post where
  title : Option Str
  date : Option Date
  slug : Option Str
  tags : List Str
  description : Str
  content : Str
  has_math : Bool
  has_mermaid : Bool
deriving DecidableEq

/-- The markdown engine is an external collaborator: a pure function from
the (stripped) transformed text to HTML, parameterised by which of the math
and mermaid extensions are enabled. -/
abbrev MdConvert := Bool → Bool → Str → Str

/-- The two `ValueError`s that `Post.parse_content` can raise: tuple
unpacking of a sentinel split with too few parts, and a `strptime` failure
(carrying the string `strptime` rejected).  Both are unhandled in the source
and abort the whole build. -/
inductive BuildErr where
  | unpack : BuildErr
  | badDate : Str → BuildErr
deriving DecidableEq

/-- A source file: the stem of its filename (it is discovered as
`<stem>.md`) and its raw text. -/
structure PostSrc where
  stem : Str
  text : Str
deriving DecidableEq

def PostSrc.name (src : PostSrc) : Str := src.stem ++ ".md".data

/-- The front-matter sentinel `'---\n'` used by the three-way split. -/
def sepFM : Str := ['-', '-', '-', '\n']

/-- Detection and conversion tail of `parse_content`, shared by both the
header and the filename paths (`content` is the body text after the header
has been stripped, or the whole file when there is none). -/
def finishPost (mdc : MdConvert) (m : PostMeta) (content : Str) : Post :=
  let hm := hasSub ['$'] content || hasSub ['\\', '['] content || hasSub ['\\', '('] content
  let hd := hasSub "```mermaid".data content
  let html := mdc hm hd (pyStripWs content)
  { title := m.title
    date := m.date
    slug := m.slug
    tags := m.tags
    description := if m.description.isEmpty then mkExcerpt html else m.description
    content := html
    has_math := hm
    has_mermaid := hd }

/-- `Post.parse_content`: split off the front matter (or fall back to the
filename convention), then detect math/mermaid, convert, and derive the
description.  The `_ , fm, content = content.split('---\n', 2)` unpacking
raises `ValueError` when the split yields fewer than three parts. -/
def parse_content (mdc : MdConvert) (src : PostSrc) : Except BuildErr Post :=
  if sepFM.isPrefixOf src.text then
    match pySplit sepFM (some 2) src.text with
    | [_, fm, body] =>
      (match parse_frontmatter initMeta fm with
       | .error v => .error (.badDate v)
       | .ok m => .ok (finishPost mdc m body))
    | _ => .error .unpack
  else
    match metaFromFilename src.stem with
    | .error v => .error (.badDate v)
    | .ok m => .ok (finishPost mdc m src.text)

/-! ### Sorting (`posts.sort(key=lambda x: x.date or datetime.min, reverse=True)`) -/

/-- Insert `x` into a list already sorted by `key` descending, after every
element whose key is not smaller — the placement a stable sort gives to a
later-discovered element. -/
def sortInsertBy (key : α → Nat) (x : α) : List α → List α
  | [] => [x]
  | y :: ys => if key y < key x then x :: y :: ys else y :: sortInsertBy key x ys

/-- Stable descending sort by a numeric key.  Python's `list.sort` with
`reverse=True` is a stable sort, and a stable sort by a given key has a
unique result, so this insertion sort computes exactly the list the source
produces. -/
def sortDescBy (key : α → Nat) (l : List α) : List α :=
  l.foldl (fun acc x => sortInsertBy key x acc) []

/-- The sort key: the post's date, with `datetime.min` substituted for a
missing one (`x.date or datetime.min`; a `datetime` is always truthy). -/
def sortKey (p : Post) : Nat := ((p.date).getD datetime_min).code

def sort_posts (l : List Post) : List Post := sortDescBy sortKey l

/-! ### Page generation -/

def SITE_TITLE : Str := "My Technical Blog".data
def SITE_URL : Str := "https://yourblog.com".data
def SITE_DESCRIPTION : Str := "A blog about programming, mathematics, and technology".data

/-- How an f-string renders an optional string field (`None` prints as such). -/
def pyStr (o : Option Str) : Str := o.getD "None".data

def boolStr (b : Bool) : Str := if b then "true".data else "false".data

/-- The three templates `generate_site` loads. -/
structure Templates where
  base : Str
  post : Str
  index : Str
deriving DecidableEq

def loadTemplates (fs : List (Str × Str)) : Templates :=
  ⟨load_template fs "base".data, load_template fs "post".data, load_template fs "index".data⟩

def tagSpan (t : Str) : Str := "<span class=\"tag\">".data ++ t ++ "</span>".data

/-- `generate_post_page`: document template, then base layout. -/
def generate_post_page_html (tpl : Templates) (p : Post) : Str :=
  let post_html := render_template tpl.post
    [("title".data, pyStr p.title),
     ("date".data, match p.date with | some dt => strftimeLong dt | none => []),
     ("content".data, p.content),
     ("tags".data, joinSep " ".data (p.tags.map tagSpan)),
     ("has_math".data, boolStr p.has_math),
     ("has_mermaid".data, boolStr p.has_mermaid)]
  render_template tpl.base
    [("title".data, pyStr p.title ++ " - ".data ++ SITE_TITLE),
     ("content".data, post_html),
     ("site_title".data, SITE_TITLE),
     ("has_math".data, boolStr p.has_math),
     ("has_mermaid".data, boolStr p.has_mermaid)]

/-- One `post-preview` article of the index page (the f-string of
`generate_index_page`, including its literal indentation). -/
def previewEntry (p : Post) : Str :=
  "\n        <article class=\"post-preview\">\n            <h2><a href=\"/posts/".data ++
  pyStr p.slug ++ ".html\">".data ++ pyStr p.title ++
  "</a></h2>\n            <time datetime=\"".data ++
  (match p.date with | some dt => isoformat dt | none => []) ++ "\">".data ++
  (match p.date with | some dt => strftimeLong dt | none => []) ++
  "</time>\n            <p>".data ++ p.description ++
  "</p>\n            <a href=\"/posts/".data ++ pyStr p.slug ++
  ".html\" class=\"read-more\">Read more →</a>\n        </article>\n        ".data

/-- `post_list` of `generate_index_page`: `for post in posts[:5]`. -/
def index_post_previews (posts : List Post) : List Str :=
  (posts.take 5).map previewEntry

def generate_index_page (tpl : Templates) (posts : List Post) : Str :=
  let index_html := render_template tpl.index
    [("posts".data, joinSep [] (index_post_previews posts)),
     ("site_title".data, SITE_TITLE),
     ("site_description".data, SITE_DESCRIPTION)]
  render_template tpl.base
    [("title".data, SITE_TITLE),
     ("content".data, index_html),
     ("site_title".data, SITE_TITLE),
     ("has_math".data, "false".data),
     ("has_mermaid".data, "false".data)]

/-- Archive years: first-occurrence order of the dated posts' years
(dict insertion order), undated posts excluded. -/
def archiveYears (posts : List Post) : List Nat :=
  posts.foldl
    (fun acc p =>
      match p.date with
      | some dt => if dt.y ∈ acc then acc else acc ++ [dt.y]
      | none => acc)
    []

def archiveItem (p : Post) : Str :=
  "<li><span class=\"date\">".data ++
  (match p.date with | some dt => monthAbbrev dt.m ++ " ".data ++ pad2 dt.d | none => []) ++
  "</span> <a href=\"/posts/".data ++ pyStr p.slug ++ ".html\">".data ++
  pyStr p.title ++ "</a></li>".data

/-- The `archive_html` list: a heading, then per year (descending) a
heading, a list opener, the year's posts in sorted order, and a closer. -/
def archiveLines (posts : List Post) : List Str :=
  "<h1>Archive</h1>".data ::
  (sortDescBy id (archiveYears posts)).flatMap (fun y =>
    ("<h2>".data ++ natStr y ++ "</h2>".data) ::
    "<ul class=\"archive-list\">".data ::
    ((posts.filter (fun p =>
        match p.date with | some dt => dt.y = y | none => false)).map archiveItem ++
      ["</ul>".data]))

def generate_archive_page (tpl : Templates) (posts : List Post) : Str :=
  render_template tpl.base
    [("title".data, "Archive - ".data ++ SITE_TITLE),
     ("content".data, joinSep ['\n'] (archiveLines posts)),
     ("site_title".data, SITE_TITLE),
     ("has_math".data, "false".data),
     ("has_mermaid".data, "false".data)]

/-- One `<item>` of the RSS feed (f-string of `generate_rss_feed`). -/
def rssItem (p : Post) : Str :=
  "\n        <item>\n            <title>".data ++ pyStr p.title ++
  "</title>\n            <link>".data ++ SITE_URL ++ "/posts/".data ++ pyStr p.slug ++
  ".html</link>\n            <description><![CDATA[".data ++ p.description ++
  "]]></description>\n            <pubDate>".data ++
  (match p.date with | some dt => strftimeRss dt | none => []) ++
  "</pubDate>\n            <guid>".data ++ SITE_URL ++ "/posts/".data ++ pyStr p.slug ++
  ".html</guid>\n        </item>\n        ".data

/-- `rss_items`: `for post in posts[:10]`. -/
def rss_items (posts : List Post) : List Str :=
  (posts.take 10).map rssItem

def generate_rss_feed (posts : List Post) : Str :=
  "<?xml version=\"1.0\" encoding=\"UTF-8\"?>\n    <rss version=\"2.0\">\n        <channel>\n            <title>".data ++
  SITE_TITLE ++ "</title>\n            <link>".data ++ SITE_URL ++
  "</link>\n            <description>".data ++ SITE_DESCRIPTION ++
  "</description>\n            <language>en-us</language>\n            ".data ++
  joinSep [] (rss_items posts) ++
  "\n        </channel>\n    </rss>\n    ".data

/-- The per-page render of `generate_site` (date and tags are rendered
empty for standalone pages). -/
def generate_page_html (tpl : Templates) (p : Post) : Str :=
  let page_html := render_template tpl.post
    [("title".data, pyStr p.title),
     ("date".data, []),
     ("content".data, p.content),
     ("tags".data, []),
     ("has_math".data, boolStr p.has_math),
     ("has_mermaid".data, boolStr p.has_mermaid)]
  render_template tpl.base
    [("title".data, pyStr p.title ++ " - ".data ++ SITE_TITLE),
     ("content".data, page_html),
     ("site_title".data, SITE_TITLE),
     ("has_math".data, boolStr p.has_math),
     ("has_mermaid".data, boolStr p.has_mermaid)]

/-! ### Site assembly (`generate_site`) -/

/-- Filesystem mutations performed by a build, in order. -/
inductive FsEvent where
  | removeOutputDir : FsEvent
  | makeOutputDir : FsEvent
  | copyStatic : FsEvent
  | makeTemplatesDir : FsEvent
  | writeFile : Str → Str → FsEvent
deriving DecidableEq

/-- The build's inputs: whether a previous `output/` directory and a
`static/` directory exist, the templates directory, and the discovered
`content/posts/*.md` and `content/pages/*.md` files in discovery order. -/
structure SiteInput where
  prevOutputExists : Bool
  staticExists : Bool
  templatesFS : List (Str × Str)
  postFiles : List PostSrc
  pageFiles : List PostSrc

/-- Events, console output, and result of one processing stage. -/
structure StageOut (α : Type) where
  events : List FsEvent
  log : List Str
  result : Except BuildErr α

def procMsg (src : PostSrc) : Str := "  ✓ Processing: ".data ++ src.name

def procPageMsg (src : PostSrc) : Str := "  ✓ Processing page: ".data ++ src.name

def postPath (p : Post) : Str := "posts/".data ++ pyStr p.slug ++ ".html".data

def pagePath (p : Post) : Str := pyStr p.slug ++ ".html".data

/-- The posts loop of `generate_site`: announce, construct (which may raise),
write the rendered page.  An exception stops the loop — and the build —
immediately. -/
def processPosts (mdc : MdConvert) (tpl : Templates) : List PostSrc → StageOut (List Post)
  | [] => ⟨[], [], .ok []⟩
  | src :: rest =>
    match parse_content mdc src with
    | .error e => ⟨[], [procMsg src], .error e⟩
    | .ok p =>
      let out := processPosts mdc tpl rest
      ⟨.writeFile (postPath p) (generate_post_page_html tpl p) :: out.events,
       procMsg src :: out.log,
       out.result.map (fun ps => p :: ps)⟩

/-- The pages loop of `generate_site`. -/
def processPages (mdc : MdConvert) (tpl : Templates) : List PostSrc → StageOut Unit
  | [] => ⟨[], [], .ok ()⟩
  | src :: rest =>
    match parse_content mdc src with
    | .error e => ⟨[], [procPageMsg src], .error e⟩
    | .ok p =>
      let out := processPages mdc tpl rest
      ⟨.writeFile (pagePath p) (generate_page_html tpl p) :: out.events,
       procPageMsg src :: out.log,
       out.result⟩

/-- The three aggregate writes (`if posts:` branch). -/
def aggregateEvents (tpl : Templates) (sorted : List Post) : List FsEvent :=
  [.writeFile "index.html".data (generate_index_page tpl sorted),
   .writeFile "archive.html".data (generate_archive_page tpl sorted),
   .writeFile "feed.xml".data (generate_rss_feed sorted)]

/-- Filesystem work done before any document is read: clean and recreate the
output directory, copy static files, and — when `base.html` is missing —
`create_default_templates`, which only creates the templates directory and
writes no template files (its body is a stub). -/
def buildHeadEvents (inp : SiteInput) : List FsEvent :=
  (if inp.prevOutputExists then [.removeOutputDir] else []) ++ [.makeOutputDir] ++
  (if inp.staticExists then [.copyStatic] else []) ++
  (if (load_template inp.templatesFS "base".data).isEmpty then [.makeTemplatesDir] else [])

def buildHeadLog (inp : SiteInput) : List Str :=
  ["🚀 Building static site...".data] ++
  (if inp.staticExists then ["  ✓ Copied static files".data] else []) ++
  (if (load_template inp.templatesFS "base".data).isEmpty then
    ["⚠️  Warning: No templates found. Creating default templates...".data,
     "Templates will be created next...".data]
   else [])

def successLog (nposts npages : Nat) : List Str :=
  ["\n✅ Site built successfully!".data,
   "   - ".data ++ natStr nposts ++ " posts generated".data,
   "   - ".data ++ natStr npages ++ " pages generated".data,
   "   - Output in: output/".data]

/-- `generate_site`: clean the output directory, copy static files, load
templates (falling back to `create_default_templates`, which writes nothing,
so the reload yields the same empty templates), process every post (writing
each page), sort, write the three aggregates when at least one post exists,
then process every page.  An unhandled `ValueError` anywhere aborts the rest
of the build. -/
def generate_site (mdc : MdConvert) (inp : SiteInput) : StageOut Unit :=
  let tpl := loadTemplates inp.templatesFS
  let sp := processPosts mdc tpl inp.postFiles
  match sp.result with
  | .error e => ⟨buildHeadEvents inp ++ sp.events, buildHeadLog inp ++ sp.log, .error e⟩
  | .ok posts =>
    let sorted := sort_posts posts
    let evA := if posts.isEmpty then [] else aggregateEvents tpl sorted
    let logA := if posts.isEmpty then [] else ["  ✓ Generated index, archive, and RSS feed".data]
    let pg := processPages mdc tpl inp.pageFiles
    match pg.result with
    | .error e =>
      ⟨buildHeadEvents inp ++ sp.events ++ evA ++ pg.events,
       buildHeadLog inp ++ sp.log ++ logA ++ pg.log, .error e⟩
    | .ok _ =>
      ⟨buildHeadEvents inp ++ sp.events ++ evA ++ pg.events,
       buildHeadLog inp ++ sp.log ++ logA ++ pg.log ++
         successLog posts.length inp.pageFiles.length,
       .ok ()⟩

/-! ### General lemmas about the embedded operations -/

/-- A replace whose pattern starts with a character absent from the text is
the identity. -/
theorem pyReplaceF_not_occur {c : Char} {tl new s : Str} (fuel : Nat)
    (hc : c ∉ s) : pyReplaceF (c :: tl) new fuel s = s := by
  induction fuel generalizing s with
  | zero => rfl
  | succ fuel ih =>
    cases s with
    | nil => simp [pyReplaceF]
    | cons a rest =>
      have hca : (c == a) = false := by
        simp only [beq_eq_false_iff_ne, ne_eq]
        intro h
        exact hc (by simp [h])
      simp only [pyReplaceF, List.isPrefixOf, hca, Bool.false_and, Bool.false_eq_true,
        if_false, reduceCtorEq]
      rw [ih (fun h => hc (List.mem_cons_of_mem a h))]

theorem pyReplace_not_occur {c : Char} {tl new s : Str} (hc : c ∉ s) :
    pyReplace (c :: tl) new s = s :=
  pyReplaceF_not_occur _ hc

/-- A split scan over text with no occurrence of the separator yields a
single field. -/
theorem pySplitF_no_occur {sep : Str} (ms : Option Nat) (fuel : Nat)
    (t cur : Str) (hf : t.length < fuel) (h : hasSub sep t = false) :
    pySplitF sep ms fuel t cur = [cur.reverse ++ t] := by
  induction fuel generalizing ms t cur with
  | zero => omega
  | succ fuel ih =>
    cases t with
    | nil =>
      rcases ms with _ | k
      · simp [pySplitF]
      · rcases k with _ | k
        · rfl
        · simp [pySplitF]
    | cons a rest =>
      rw [hasSub] at h
      simp only [Bool.or_eq_false_iff] at h
      have hlen : rest.length < fuel := by
        simp only [List.length_cons] at hf
        omega
      rcases ms with _ | k
      · simp only [pySplitF, h.1, Bool.false_eq_true, if_false]
        rw [ih none rest (a :: cur) hlen h.2]
        simp
      · rcases k with _ | k
        · rfl
        · simp only [pySplitF, h.1, Bool.false_eq_true, if_false]
          rw [ih (some (k + 1)) rest (a :: cur) hlen h.2]
          simp

/-- A split never produces the empty list (so a `tags:` value always parses
to at least one tag). -/
theorem pySplitF_ne_nil (sep : Str) (ms : Option Nat) (fuel : Nat)
    (t cur : Str) : pySplitF sep ms fuel t cur ≠ [] := by
  induction fuel generalizing ms t cur with
  | zero => simp [pySplitF]
  | succ fuel ih =>
    cases t with
    | nil =>
      rcases ms with _ | k
      · simp [pySplitF]
      · rcases k with _ | k
        · simp [pySplitF]
        · simp [pySplitF]
    | cons a rest =>
      rcases ms with _ | k
      · simp only [pySplitF]
        split
        · simp
        · exact ih none rest (a :: cur)
      · rcases k with _ | k
        · simp [pySplitF]
        · simp only [pySplitF]
          split
          · simp
          · exact ih (some (k + 1)) rest (a :: cur)

theorem pySplit_ne_nil (sep : Str) (ms : Option Nat) (t : Str) :
    pySplit sep ms t ≠ [] :=
  pySplitF_ne_nil sep ms (t.length + 1) t []

/-- Splitting `'---\n' + t` where `t` has no further sentinel yields exactly
two parts — too few for the three-way unpacking in `parse_content`. -/
theorem pySplit_sepFM_append (t : Str) (h : hasSub sepFM t = false) :
    pySplit sepFM (some 2) (sepFM ++ t) = [[], t] := by
  show pySplitF sepFM (some 2) ((sepFM ++ t).length + 1) (sepFM ++ t) [] = [[], t]
  have hlen : (sepFM ++ t).length + 1 = t.length + 4 + 1 := by
    simp only [sepFM, List.length_append, List.length_cons, List.length_nil]
    omega
  rw [hlen]
  have step : pySplitF sepFM (some 2) (t.length + 4 + 1) (sepFM ++ t) [] =
      [] :: pySplitF sepFM (some 1) (t.length + 4) t [] := by
    conv_lhs => rw [show sepFM ++ t = '-' :: '-' :: '-' :: '\n' :: t from rfl]
    rw [pySplitF]
    · simp [sepFM, List.isPrefixOf, decMS]
    · simp
  rw [step, pySplitF_no_occur (some 1) (t.length + 4) t [] (by omega) h]
  rfl

/-- A document that opens with the sentinel but never closes it makes
`parse_content` raise the unpacking `ValueError`. -/
theorem parse_content_unpack (mdc : MdConvert) (src : PostSrc) (t : Str)
    (htext : src.text = sepFM ++ t) (h : hasSub sepFM t = false) :
    parse_content mdc src = .error .unpack := by
  have hpre : sepFM.isPrefixOf (sepFM ++ t) = true :=
    List.isPrefixOf_iff_prefix.mpr (List.prefix_append _ _)
  simp only [parse_content, htext, hpre, if_true, pySplit_sepFM_append t h]

/-- The posts loop stops at the first document whose construction raises:
the error propagates and the log ends with that document's announcement. -/
theorem processPosts_error_append (mdc : MdConvert) (tpl : Templates)
    (pre : List PostSrc) (src : PostSrc) (rest : List PostSrc) (e : BuildErr)
    (hpre : ∀ q ∈ pre, (parse_content mdc q).isOk = true)
    (herr : parse_content mdc src = .error e) :
    (processPosts mdc tpl (pre ++ src :: rest)).result = .error e ∧
    (processPosts mdc tpl (pre ++ src :: rest)).log = pre.map procMsg ++ [procMsg src] := by
  induction pre with
  | nil => simp [processPosts, herr]
  | cons q qs ih =>
    have hq := hpre q (by simp)
    rcases hok : parse_content mdc q with e0 | p
    · rw [hok] at hq
      simp [Except.isOk, Except.toBool] at hq
    · have ih2 := ih (fun r hr => hpre r (by simp [hr]))
      simp only [List.cons_append, processPosts, hok, List.append_eq]
      refine ⟨?_, ?_⟩
      · rw [ih2.1]
        simp [Except.map]
      · simp [ih2.2]

/-- When every post parses, the posts list has one entry per source file. -/
theorem processPosts_ok_length (mdc : MdConvert) (tpl : Templates) :
    ∀ (srcs : List PostSrc) (ps : List Post),
      (processPosts mdc tpl srcs).result = .ok ps → ps.length = srcs.length := by
  intro srcs
  induction srcs with
  | nil =>
    intro ps h
    simp only [processPosts] at h
    cases h
    rfl
  | cons q qs ih =>
    intro ps h
    rcases hok : parse_content mdc q with e0 | p
    · simp [processPosts, hok] at h
    · simp only [processPosts, hok] at h
      rcases hr : (processPosts mdc tpl qs).result with e1 | ps1
      · rw [hr] at h
        simp [Except.map] at h
      · rw [hr] at h
        simp only [Except.map] at h
        cases h
        simp [ih ps1 hr]

/-- `generate_site` when the posts loop raises. -/
theorem generate_site_posts_error (mdc : MdConvert) (inp : SiteInput) (e : BuildErr)
    (h : (processPosts mdc (loadTemplates inp.templatesFS) inp.postFiles).result = .error e) :
    generate_site mdc inp =
      ⟨buildHeadEvents inp ++ (processPosts mdc (loadTemplates inp.templatesFS) inp.postFiles).events,
       buildHeadLog inp ++ (processPosts mdc (loadTemplates inp.templatesFS) inp.postFiles).log,
       .error e⟩ := by
  simp only [generate_site, h]

/-- `generate_site` when everything parses. -/
theorem generate_site_all_ok (mdc : MdConvert) (inp : SiteInput) (posts : List Post)
    (hp : (processPosts mdc (loadTemplates inp.templatesFS) inp.postFiles).result = .ok posts)
    (hq : (processPages mdc (loadTemplates inp.templatesFS) inp.pageFiles).result = .ok ()) :
    (generate_site mdc inp).events =
      buildHeadEvents inp ++
      (processPosts mdc (loadTemplates inp.templatesFS) inp.postFiles).events ++
      (if posts.isEmpty then []
       else aggregateEvents (loadTemplates inp.templatesFS) (sort_posts posts)) ++
      (processPages mdc (loadTemplates inp.templatesFS) inp.pageFiles).events := by
  simp only [generate_site, hp, hq]


/-! ### Properties of the stable descending sort -/

theorem sortInsertBy_perm (key : α → Nat) (x : α) (l : List α) :
    List.Perm (sortInsertBy key x l) (x :: l) := by
  induction l with
  | nil => exact .refl _
  | cons y ys ih =>
    simp only [sortInsertBy]
    split
    · exact .refl _
    · exact .trans (.cons y ih) (.swap x y ys)

theorem sortDescBy_foldl_perm (key : α → Nat) (l : List α) :
    ∀ acc : List α,
      List.Perm (l.foldl (fun a x => sortInsertBy key x a) acc) (acc ++ l) := by
  induction l with
  | nil => intro acc; simp
  | cons x xs ih =>
    intro acc
    have h1 := ih (sortInsertBy key x acc)
    have h2 := (sortInsertBy_perm key x acc).append_right xs
    exact (h1.trans h2).trans (List.perm_middle).symm

/-- The sort returns a permutation of its input. -/
theorem sortDescBy_perm (key : α → Nat) (l : List α) :
    List.Perm (sortDescBy key l) l := by
  have h := sortDescBy_foldl_perm key l []
  simpa [sortDescBy] using h

/-- Insertion keeps the list sorted by `key` descending. -/
theorem sortInsertBy_sorted (key : α → Nat) (x : α) (l : List α)
    (hl : l.Pairwise (fun a b => key b ≤ key a)) :
    (sortInsertBy key x l).Pairwise (fun a b => key b ≤ key a) := by
  induction l with
  | nil => simp [sortInsertBy]
  | cons y ys ih =>
    rw [List.pairwise_cons] at hl
    simp only [sortInsertBy]
    split
    · rename_i hlt
      rw [List.pairwise_cons]
      refine ⟨?_, List.pairwise_cons.mpr hl⟩
      intro z hz
      rcases List.mem_cons.mp hz with hzy | hzys
      · subst hzy; omega
      · have := hl.1 z hzys; omega
    · rename_i hge
      rw [List.pairwise_cons]
      refine ⟨?_, ih hl.2⟩
      intro z hz
      have hz2 := (sortInsertBy_perm key x ys).mem_iff.mp hz
      rcases List.mem_cons.mp hz2 with hzx | hzys
      · subst hzx; omega
      · exact hl.1 z hzys

/-- The sorted output is pairwise descending in the key. -/
theorem sortDescBy_sorted (key : α → Nat) (l : List α) :
    (sortDescBy key l).Pairwise (fun a b => key b ≤ key a) := by
  suffices h : ∀ acc : List α, acc.Pairwise (fun a b => key b ≤ key a) →
      (l.foldl (fun a x => sortInsertBy key x a) acc).Pairwise
        (fun a b => key b ≤ key a) by
    exact h [] (by simp)
  induction l with
  | nil => intro acc hacc; exact hacc
  | cons x xs ih =>
    intro acc hacc
    exact ih (sortInsertBy key x acc) (sortInsertBy_sorted key x acc hacc)

/-- Inserting an element with a different key does not disturb a key class. -/
theorem sortInsertBy_filter_ne (key : α → Nat) (x : α) (l : List α) (k : Nat)
    (hx : key x ≠ k) :
    (sortInsertBy key x l).filter (fun y => key y == k) =
      l.filter (fun y => key y == k) := by
  induction l with
  | nil => simp [sortInsertBy, List.filter_cons, hx]
  | cons y ys ih =>
    simp only [sortInsertBy]
    split
    · simp [List.filter_cons, hx]
    · simp only [List.filter_cons, ih]

/-- Inserting an element of key `k` into a descending-sorted list appends it
to its key class: the stability of the sort. -/
theorem sortInsertBy_filter_eq (key : α → Nat) (x : α) (l : List α) (k : Nat)
    (hl : l.Pairwise (fun a b => key b ≤ key a)) (hx : key x = k) :
    (sortInsertBy key x l).filter (fun y => key y == k) =
      l.filter (fun y => key y == k) ++ [x] := by
  induction l with
  | nil => simp [sortInsertBy, List.filter_cons, hx]
  | cons y ys ih =>
    rw [List.pairwise_cons] at hl
    simp only [sortInsertBy]
    split
    · rename_i hlt
      have hclass : (y :: ys).filter (fun z => key z == k) = [] := by
        rw [List.filter_eq_nil_iff]
        intro z hz
        simp only [beq_iff_eq]
        rcases List.mem_cons.mp hz with hzy | hzys
        · subst hzy; omega
        · have := hl.1 z hzys; omega
      rw [List.filter_cons_of_pos (by simp [hx]), hclass]
      rfl
    · simp only [List.filter_cons, ih hl.2]
      split
      · rfl
      · rfl

/-- Stability of the sort: each key class keeps its original (discovery)
order. -/
theorem sortDescBy_filter (key : α → Nat) (l : List α) (k : Nat) :
    (sortDescBy key l).filter (fun y => key y == k) =
      l.filter (fun y => key y == k) := by
  suffices h : ∀ acc : List α, acc.Pairwise (fun a b => key b ≤ key a) →
      (l.foldl (fun a x => sortInsertBy key x a) acc).filter (fun y => key y == k) =
        acc.filter (fun y => key y == k) ++ l.filter (fun y => key y == k) by
    have := h [] (by simp)
    simpa [sortDescBy] using this
  induction l with
  | nil => intro acc hacc; simp
  | cons x xs ih =>
    intro acc hacc
    have hstep :=
      ih (sortInsertBy key x acc) (sortInsertBy_sorted key x acc hacc)
    show (xs.foldl (fun a y => sortInsertBy key y a) (sortInsertBy key x acc)).filter
        (fun y => key y == k) = _
    rw [hstep]
    by_cases hk : key x = k
    · rw [sortInsertBy_filter_eq key x acc k hacc hk,
        List.filter_cons_of_pos (by simp [hk])]
      simp
    · rw [sortInsertBy_filter_ne key x acc k hk,
        List.filter_cons_of_neg (by simp [hk])]

/-! ### Claims -/

/-- C2 (counterexample): template rendering is *not* non-recursive
substitution.  With `t = {{a}}` and the mapping `a ↦ {{b}}, b ↦ X` (in that
keyword order), the value substituted for `a` is re-expanded by the later
`b` pass, producing `X`; and with the keys in the opposite order a second
render differs from the first, so `render(render(t,v),v)` does change
already-substituted regions. -/
theorem c2_counterexample :
    render_template "\x7b\x7ba\x7d\x7d".data
        [("a".data, "\x7b\x7bb\x7d\x7d".data), ("b".data, "X".data)] = "X".data ∧
    render_template
        (render_template "\x7b\x7ba\x7d\x7d".data
          [("b".data, "X".data), ("a".data, "\x7b\x7bb\x7d\x7d".data)])
        [("b".data, "X".data), ("a".data, "\x7b\x7bb\x7d\x7d".data)] ≠
      render_template "\x7b\x7ba\x7d\x7d".data
        [("b".data, "X".data), ("a".data, "\x7b\x7bb\x7d\x7d".data)] := by
  decide

/-- C2 (amended): rendering is literal *sequential* substitution in keyword
order.  A substituted value containing `{{other}}` is re-expanded exactly
when `other` is a later key of the mapping (first two conjuncts, for any
brace-free value `x`), and a placeholder whose name is absent from the
mapping remains literally present in the output (third conjunct). -/
theorem c2_amended (x : Str) (hx : Char.ofNat 123 ∉ x) :
    render_template "\x7b\x7ba\x7d\x7d".data
        [("a".data, "\x7b\x7bb\x7d\x7d".data), ("b".data, x)] = x ∧
    render_template "\x7b\x7ba\x7d\x7d".data
        [("b".data, x), ("a".data, "\x7b\x7bb\x7d\x7d".data)] = "\x7b\x7bb\x7d\x7d".data ∧
    render_template "\x7b\x7bmissing\x7d\x7d".data
        [("a".data, "\x7b\x7bb\x7d\x7d".data), ("b".data, x)] = "\x7b\x7bmissing\x7d\x7d".data := by
  refine ⟨?_, ?_, ?_⟩
  · have h1 : render_template "\x7b\x7ba\x7d\x7d".data
        [("a".data, "\x7b\x7bb\x7d\x7d".data), ("b".data, x)] =
        pyReplace "\x7b\x7b b \x7d\x7d".data x
          (pyReplace "\x7b\x7bb\x7d\x7d".data x "\x7b\x7bb\x7d\x7d".data) := rfl
    have h2 : pyReplace "\x7b\x7bb\x7d\x7d".data x "\x7b\x7bb\x7d\x7d".data = x ++ [] := rfl
    rw [h1, h2, List.append_nil]
    exact pyReplace_not_occur hx
  · have h1 : render_template "\x7b\x7ba\x7d\x7d".data
        [("b".data, x), ("a".data, "\x7b\x7bb\x7d\x7d".data)] =
        pyReplace "\x7b\x7b a \x7d\x7d".data "\x7b\x7bb\x7d\x7d".data
          (pyReplace "\x7b\x7ba\x7d\x7d".data "\x7b\x7bb\x7d\x7d".data
            (pyReplace "\x7b\x7b b \x7d\x7d".data x
              (pyReplace "\x7b\x7bb\x7d\x7d".data x "\x7b\x7ba\x7d\x7d".data))) := rfl
    rw [h1]
    rfl
  · rfl

/-- C2 (witness for the amended theorem at `x = "X"`). -/
theorem c2_amended_witness :
    Char.ofNat 123 ∉ "X".data ∧
    render_template "\x7b\x7ba\x7d\x7d".data
        [("a".data, "\x7b\x7bb\x7d\x7d".data), ("b".data, "X".data)] = "X".data :=
  ⟨by decide, (c2_amended "X".data (by decide)).1⟩

/-- C7: the math transformer on `$$x^2$$` and `$x$` produces the atomic
display/inline spans, the outputs contain no remaining `$` delimiter, and
re-running the full transformation on each output is a no-op. -/
theorem c7_math_idempotent :
    MathPreprocessor.run "$$x^2$$".data =
      "<div class=\"math math-display\">&#92;[x^2&#92;]</div>".data ∧
    hasSub ['$'] (MathPreprocessor.run "$$x^2$$".data) = false ∧
    MathPreprocessor.run (MathPreprocessor.run "$$x^2$$".data) =
      MathPreprocessor.run "$$x^2$$".data ∧
    MathPreprocessor.run "$x$".data =
      "<span class=\"math math-inline\">&#92;(x&#92;)</span>".data ∧
    hasSub ['$'] (MathPreprocessor.run "$x$".data) = false ∧
    MathPreprocessor.run (MathPreprocessor.run "$x$".data) =
      MathPreprocessor.run "$x$".data := by
  refine ⟨by decide, by decide, by decide, by decide, by decide, by decide⟩

/-- C10: a `tags:` header value always parses to a *nonempty* tag list,
because the bracket-stripped value is split on commas unconditionally and a
split never returns the empty list; in particular `tags: []` yields the
one-element list containing the empty string. -/
theorem c10_tags_nonempty :
    (∀ value : Str, tagsFromValue value ≠ []) ∧
    tagsFromValue "[]".data = [[]] ∧
    parseFMLine initMeta "tags: []".data = .ok { initMeta with tags := [[]] } := by
  refine ⟨?_, by decide, by decide⟩
  intro value h
  unfold tagsFromValue at h
  exact pySplit_ne_nil [','] none (pyStripChars ['[', ']'] value)
    (List.map_eq_nil_iff.mp h)

/-! ### Concrete fixtures used by witnesses and counterexamples -/

/-- A markdown engine for concrete runs: the converter is an external
black box, and the claims under test do not depend on its output, so the
identity serves. -/
def mdId : MdConvert := fun _ _ s => s

/-- An undated post (no header date, no filename date). -/
def postU : Post := ⟨some "U".data, none, some "u".data, [], [], [], false, false⟩

/-- A post dated 0001-01-01, which is exactly `datetime.min`. -/
def postMin : Post :=
  ⟨some "M".data, some ⟨1, 1, 1⟩, some "m".data, [], [], [], false, false⟩

def postD1 : Post :=
  ⟨some "A".data, some ⟨2024, 1, 1⟩, some "a1".data, [], [], [], false, false⟩

def postD2 : Post :=
  ⟨some "B".data, some ⟨2023, 12, 1⟩, some "b1".data, [], [], [], false, false⟩

/-- A well-formed post source (title, slug `a`, date 2024-01-02). -/
def srcGood : PostSrc :=
  ⟨"good".data, "---\ntitle: T\nslug: a\ndate: 2024-01-02\n---\nhi".data⟩

/-- A post whose header date `2024-13-01` does not parse. -/
def srcBadDate : PostSrc :=
  ⟨"bad".data, "---\ntitle: B\ndate: 2024-13-01\n---\nhi".data⟩

/-- A post whose opening sentinel is never closed. -/
def srcUnclosed : PostSrc := ⟨"open".data, "---\ntitle: x".data⟩

/-- A small but complete template set. -/
def tplFixture : List (Str × Str) :=
  [("base".data, "[\x7b\x7b title \x7d\x7d]\x7b\x7bcontent\x7d\x7d".data),
   ("post".data, "(\x7b\x7btitle\x7d\x7d:\x7b\x7bcontent\x7d\x7d)".data),
   ("index".data, "I\x7b\x7bposts\x7d\x7d".data)]

def inpBadDate : SiteInput := ⟨true, false, tplFixture, [srcBadDate], []⟩

def inpPrevOk : SiteInput := ⟨true, false, tplFixture, [srcGood], []⟩

def inpNoPosts : SiteInput := ⟨false, false, tplFixture, [], []⟩

def inpFull : SiteInput := ⟨false, false, tplFixture, [srcGood], []⟩

def inpNoTemplates : SiteInput := ⟨false, false, [], [srcGood], []⟩

def inpUnclosed : SiteInput := ⟨false, false, tplFixture, [srcUnclosed], []⟩

/-- The part of claim C5 the code violates: every undated post comes after
every dated post in the sorted order. -/
def undatedAfterDated (l : List Post) : Prop :=
  ∀ i j : Fin l.length,
    ((l.get i).date = none) → ((l.get j).date).isSome = true → (j : Nat) < (i : Nat)

/-- C5 (counterexample): an undated post does *not* always sort after all
dated posts.  An undated post keys as `datetime.min`, so against a post
dated exactly 0001-01-01 it ties, and the stable sort keeps the undated
post first. -/
theorem c5_counterexample :
    sort_posts [postU, postMin] = [postU, postMin] ∧
    postU.date = none ∧
    postMin.date = some datetime_min ∧
    ¬ undatedAfterDated (sort_posts [postU, postMin]) := by
  refine ⟨by decide, rfl, rfl, ?_⟩
  intro h
  have heq : sort_posts [postU, postMin] = [postU, postMin] := by decide
  rw [heq] at h
  have h01 := h ⟨0, by decide⟩ ⟨1, by decide⟩ (by decide) (by decide)
  simp at h01

/-- C5 (amended): the sort is the stable descending sort by the key
`date or datetime.min`: it permutes the input; keys are non-increasing;
every key class — undated posts *together with* posts dated exactly
0001-01-01 — keeps its discovery order; and an undated post comes after
every post dated strictly later than `datetime.min`. -/
theorem c5_amended_sort (l : List Post) :
    List.Perm (sort_posts l) l ∧
    (sort_posts l).Pairwise (fun a b => sortKey b ≤ sortKey a) ∧
    (∀ k : Nat, (sort_posts l).filter (fun p => sortKey p == k) =
      l.filter (fun p => sortKey p == k)) ∧
    (∀ (i j : Fin (sort_posts l).length) (dt : Date),
      ((sort_posts l).get i).date = none →
      ((sort_posts l).get j).date = some dt →
      datetime_min.code < dt.code →
      (j : Nat) < (i : Nat)) := by
  refine ⟨sortDescBy_perm sortKey l, sortDescBy_sorted sortKey l,
    fun k => sortDescBy_filter sortKey l k, ?_⟩
  intro i j dt hi hj hcode
  have hsorted : (sort_posts l).Pairwise (fun a b => sortKey b ≤ sortKey a) :=
    sortDescBy_sorted sortKey l
  rcases Nat.lt_trichotomy (j : Nat) (i : Nat) with hlt | heq | hgt
  · exact hlt
  · exfalso
    have hije : i = j := Fin.ext heq.symm
    rw [hije, hj] at hi
    cases hi
  · exfalso
    have hR := List.pairwise_iff_get.mp hsorted i j hgt
    rw [sortKey, sortKey, hi, hj] at hR
    simp only [Option.getD_some, Option.getD_none] at hR
    omega

/-- C5 (witness): on the spec's own example — posts dated 2024-01-01,
2023-12-01 and one undated — the sort permutes the input, and the undated
post (position 2 after sorting) comes after the dated one at position 0. -/
theorem c5_amended_witness :
    List.Perm (sort_posts [postD1, postD2, postU]) [postD1, postD2, postU] ∧
    (0 : Nat) < 2 := by
  refine ⟨(c5_amended_sort [postD1, postD2, postU]).1, ?_⟩
  exact (c5_amended_sort [postD1, postD2, postU]).2.2.2
    ⟨2, by decide⟩ ⟨0, by decide⟩ ⟨2024, 1, 1⟩ (by decide) (by decide) (by decide)

/-- C6: the index page renders exactly the first five posts of its input
(the sorted list) as preview entries and the feed exactly the first ten as
items; both are capped (`min`) whatever the number of posts. -/
theorem c6_index_feed_bounds (posts : List Post) :
    index_post_previews posts = (posts.take 5).map previewEntry ∧
    (index_post_previews posts).length = min 5 posts.length ∧
    rss_items posts = (posts.take 10).map rssItem ∧
    (rss_items posts).length = min 10 posts.length := by
  refine ⟨rfl, ?_, rfl, ?_⟩
  · simp [index_post_previews]
  · simp [rss_items]

/-- `generate_site` when the pages loop raises. -/
theorem generate_site_pages_error (mdc : MdConvert) (inp : SiteInput)
    (posts : List Post) (e : BuildErr)
    (hp : (processPosts mdc (loadTemplates inp.templatesFS) inp.postFiles).result = .ok posts)
    (hq : (processPages mdc (loadTemplates inp.templatesFS) inp.pageFiles).result = .error e) :
    (generate_site mdc inp).result = .error e := by
  simp only [generate_site, hp, hq]

/-- Every build's event trace starts with the head events (output cleanup,
static copy, template fallback), whatever happens afterwards. -/
theorem generate_site_events_shape (mdc : MdConvert) (inp : SiteInput) :
    ∃ rest : List FsEvent,
      (generate_site mdc inp).events = buildHeadEvents inp ++ rest := by
  rcases h1 : (processPosts mdc (loadTemplates inp.templatesFS) inp.postFiles).result with e | posts
  · exact ⟨_, by rw [generate_site_posts_error mdc inp e h1]⟩
  · rcases h2 : (processPages mdc (loadTemplates inp.templatesFS) inp.pageFiles).result with e | u
    · refine ⟨(processPosts mdc (loadTemplates inp.templatesFS) inp.postFiles).events ++
        ((if posts.isEmpty then []
          else aggregateEvents (loadTemplates inp.templatesFS) (sort_posts posts)) ++
         (processPages mdc (loadTemplates inp.templatesFS) inp.pageFiles).events), ?_⟩
      simp only [generate_site, h1, h2, List.append_assoc]
    · cases u
      refine ⟨(processPosts mdc (loadTemplates inp.templatesFS) inp.postFiles).events ++
        ((if posts.isEmpty then []
          else aggregateEvents (loadTemplates inp.templatesFS) (sort_posts posts)) ++
         (processPages mdc (loadTemplates inp.templatesFS) inp.pageFiles).events), ?_⟩
      simp only [generate_site, h1, h2, List.append_assoc]

/-- C4: a header date that `strptime` rejects is fatal: when every earlier
post parses, the build aborts with that `ValueError` (the bad value is
reported, the document is not skipped), and the last console line names the
offending file. -/
theorem c4_bad_header_date_fatal (mdc : MdConvert) (inp : SiteInput)
    (pre rest : List PostSrc) (src : PostSrc) (p0 fm body v : Str)
    (hfiles : inp.postFiles = pre ++ src :: rest)
    (hok : ∀ q ∈ pre, (parse_content mdc q).isOk = true)
    (hsplit : sepFM.isPrefixOf src.text = true)
    (hparts : pySplit sepFM (some 2) src.text = [p0, fm, body])
    (hfm : parse_frontmatter initMeta fm = .error v) :
    (generate_site mdc inp).result = .error (.badDate v) ∧
    (generate_site mdc inp).log.getLast? = some (procMsg src) := by
  have herr : parse_content mdc src = .error (.badDate v) := by
    simp only [parse_content, hsplit, if_true, hparts, hfm]
  have hpp := processPosts_error_append mdc (loadTemplates inp.templatesFS)
    pre src rest _ hok herr
  have hres : (processPosts mdc (loadTemplates inp.templatesFS) inp.postFiles).result =
      .error (.badDate v) := by
    rw [hfiles]; exact hpp.1
  have hlog : (processPosts mdc (loadTemplates inp.templatesFS) inp.postFiles).log =
      pre.map procMsg ++ [procMsg src] := by
    rw [hfiles]; exact hpp.2
  rw [generate_site_posts_error mdc inp _ hres]
  refine ⟨rfl, ?_⟩
  show (buildHeadLog inp ++
    (processPosts mdc (loadTemplates inp.templatesFS) inp.postFiles).log).getLast? =
      some (procMsg src)
  rw [hlog, List.getLast?_append_of_ne_nil _ (by simp),
    List.getLast?_append_of_ne_nil _ (by simp)]
  rfl

/-- C4 (witness): the concrete build over the single document whose header
says `date: 2024-13-01` aborts with the strptime error on that value, and
the last console line names `bad.md`. -/
theorem c4_witness :
    (generate_site mdId inpBadDate).result = .error (.badDate "2024-13-01".data) ∧
    (generate_site mdId inpBadDate).log.getLast? = some (procMsg srcBadDate) :=
  c4_bad_header_date_fatal mdId inpBadDate [] [] srcBadDate
    [] "title: B\ndate: 2024-13-01\n".data "hi".data "2024-13-01".data
    rfl (by simp) (by decide) (by decide) (by decide)

/-- C9: a source that begins with the sentinel line `---` but never repeats
it makes the three-way split yield two parts; the unpacking raises an
unhandled `ValueError`, and a build that reaches such a document aborts
entirely — the document is not treated as headerless or skipped. -/
theorem c9_unclosed_header_fatal (mdc : MdConvert) (inp : SiteInput)
    (src : PostSrc) (rest : List PostSrc) (t : Str)
    (htext : src.text = sepFM ++ t)
    (hno : hasSub sepFM t = false)
    (hfiles : inp.postFiles = src :: rest) :
    parse_content mdc src = .error .unpack ∧
    (generate_site mdc inp).result = .error .unpack := by
  have herr := parse_content_unpack mdc src t htext hno
  refine ⟨herr, ?_⟩
  have hpp := processPosts_error_append mdc (loadTemplates inp.templatesFS)
    [] src rest _ (by simp) herr
  have hres : (processPosts mdc (loadTemplates inp.templatesFS) inp.postFiles).result =
      .error .unpack := by
    rw [hfiles]
    simpa using hpp.1
  rw [generate_site_posts_error mdc inp _ hres]

/-- C9 (witness): the concrete document `---\ntitle: x` aborts the build
with the unpacking error. -/
theorem c9_witness :
    parse_content mdId srcUnclosed = .error .unpack ∧
    (generate_site mdId inpUnclosed).result = .error .unpack :=
  c9_unclosed_header_fatal mdId inpUnclosed srcUnclosed [] "title: x".data
    (by decide) (by decide) rfl

/-- C1 (counterexample): a build over a previous output directory deletes it
as its very first filesystem action and then aborts on the bad header date —
the previous output is destroyed although no full new output was produced,
so a partial-success state exists. -/
theorem c1_counterexample :
    (generate_site mdId inpBadDate).events.head? = some FsEvent.removeOutputDir ∧
    (generate_site mdId inpBadDate).result = .error (.badDate "2024-13-01".data) := by
  decide

/-- C1 (amended): the build deletes the previous output directory
unconditionally and first — before templates are loaded or any document is
discovered — so a run that later aborts leaves the previous output destroyed
and only the files written before the failure. -/
theorem c1_amended_delete_first (mdc : MdConvert) (inp : SiteInput)
    (hprev : inp.prevOutputExists = true) :
    (generate_site mdc inp).events.head? = some FsEvent.removeOutputDir := by
  obtain ⟨rest, hev⟩ := generate_site_events_shape mdc inp
  rw [hev]
  simp [buildHeadEvents, hprev]

/-- C1 (witness): even a fully successful build over a previous output
directory starts by deleting it. -/
theorem c1_amended_witness :
    (generate_site mdId inpPrevOk).events.head? = some FsEvent.removeOutputDir :=
  c1_amended_delete_first mdId inpPrevOk rfl

/-- C8 (counterexample): a completed build with zero posts writes neither
`index.html` nor `archive.html` nor `feed.xml` — its only event is creating
the output directory — because the aggregate writes sit under `if posts:`. -/
theorem c8_counterexample :
    (generate_site mdId inpNoPosts).result = .ok () ∧
    (generate_site mdId inpNoPosts).events = [FsEvent.makeOutputDir] := by
  decide

/-- C8 (amended): every *completed* build with at least one post writes
`index.html`, `archive.html` and `feed.xml` at the output root; with zero
posts none of the three is written. -/
theorem c8_amended_aggregates (mdc : MdConvert) (inp : SiteInput)
    (hok : (generate_site mdc inp).result = .ok ())
    (hne : inp.postFiles ≠ []) :
    (∃ c, FsEvent.writeFile "index.html".data c ∈ (generate_site mdc inp).events) ∧
    (∃ c, FsEvent.writeFile "archive.html".data c ∈ (generate_site mdc inp).events) ∧
    (∃ c, FsEvent.writeFile "feed.xml".data c ∈ (generate_site mdc inp).events) := by
  rcases h1 : (processPosts mdc (loadTemplates inp.templatesFS) inp.postFiles).result with e | posts
  · rw [generate_site_posts_error mdc inp e h1] at hok
    exact Except.noConfusion hok
  · rcases h2 : (processPages mdc (loadTemplates inp.templatesFS) inp.pageFiles).result with e | u
    · rw [generate_site_pages_error mdc inp posts e h1 h2] at hok
      exact Except.noConfusion hok
    · cases u
      have hlen := processPosts_ok_length mdc (loadTemplates inp.templatesFS)
        inp.postFiles posts h1
      have hpe : posts.isEmpty = false := by
        cases hps : posts with
        | nil =>
          exfalso
          rw [hps] at hlen
          exact hne (List.length_eq_zero.mp hlen.symm)
        | cons a as => rfl
      have hev := generate_site_all_ok mdc inp posts h1 h2
      rw [hev, hpe]
      refine ⟨⟨generate_index_page (loadTemplates inp.templatesFS) (sort_posts posts), ?_⟩,
        ⟨generate_archive_page (loadTemplates inp.templatesFS) (sort_posts posts), ?_⟩,
        ⟨generate_rss_feed (sort_posts posts), ?_⟩⟩ <;>
      · simp [aggregateEvents]

/-- C8 (witness): the completed single-post build writes `index.html`. -/
theorem c8_amended_witness :
    ∃ c, FsEvent.writeFile "index.html".data c ∈ (generate_site mdId inpFull).events :=
  (c8_amended_aggregates mdId inpFull (by decide) (by decide)).1

/-- C3: with the templates directory wholly absent the build does *not*
abort and does *not* synthesize a usable fallback: `load_template` returns
the empty string, `create_default_templates` only creates the directory
(its body is a stub that writes no template files), and the build completes
with every templated page — here the post page and the index — rendered
through the empty template, i.e. written as empty files. -/
theorem c3_empty_template_build :
    load_template ([] : List (Str × Str)) "base".data = [] ∧
    (generate_site mdId inpNoTemplates).result = .ok () ∧
    FsEvent.makeTemplatesDir ∈ (generate_site mdId inpNoTemplates).events ∧
    FsEvent.writeFile "posts/a.html".data [] ∈ (generate_site mdId inpNoTemplates).events ∧
    FsEvent.writeFile "index.html".data [] ∈ (generate_site mdId inpNoTemplates).events := by
  refine ⟨rfl, by decide, by decide, by decide, by decide⟩
